import Mathlib

/-!
# Verification of the vehicle map simulation

A shallow embedding of the client-side simulation logic of the Map-Simulation
repository (`src/app/page.tsx`): the Haversine distance function, the
per-frame animation step (`animate`), the play/pause button, the reset
callback and the data-load effect.  JavaScript `number` arithmetic is
idealised as real arithmetic (`ℝ`); ISO-8601 timestamp strings are modelled
by their numeric epoch-millisecond value, which is the only thing the
simulation logic ever reads off them (`new Date(ts).getTime()`).
-/

open Real

namespace MapSim

/-- `Math.atan2` of JavaScript, on ideal reals: the angle of the point
`(x, y)`, following the documented case analysis of the host function. -/
noncomputable def atan2 (y x : ℝ) : ℝ :=
  if 0 < x then Real.arctan (y / x)
  else if x < 0 then
    (if 0 ≤ y then Real.arctan (y / x) + Real.pi
     else Real.arctan (y / x) - Real.pi)
  else
    (if 0 < y then Real.pi / 2
     else if y < 0 then -(Real.pi / 2)
     else 0)

/-- `atan2` of a nonnegative ordinate is nonnegative. -/
theorem atan2_nonneg {y x : ℝ} (hy : 0 ≤ y) : 0 ≤ atan2 y x := by
  unfold atan2
  split
  · rename_i hx
    have : (0 : ℝ) ≤ y / x := div_nonneg hy hx.le
    have h0 : Real.arctan 0 ≤ Real.arctan (y / x) :=
      Real.arctan_strictMono.monotone this
    simpa [Real.arctan_zero] using h0
  · split
    · rename_i hx
      have h1 : -(Real.pi / 2) < Real.arctan (y / x) :=
        Real.neg_pi_div_two_lt_arctan (y / x)
      have hpi : 0 < Real.pi := Real.pi_pos
      linarith
    · split
      · positivity
      · split
        · rename_i hlt
          linarith
        · exact le_refl 0

/-- `atan2 0 1 = 0` (the value reached by the Haversine formula on two
identical points). -/
theorem atan2_zero_one : atan2 0 1 = 0 := by
  unfold atan2
  norm_num

/-- `haversineDistance`, translated from `src/app/page.tsx` lines 27–38:
great-circle distance in meters between two points given in degrees, on a
sphere of radius `6371e3` meters. -/
noncomputable def haversineDistance (lat1 lon1 lat2 lon2 : ℝ) : ℝ :=
  let R : ℝ := 6371e3
  let phi1 := lat1 * Real.pi / 180
  let phi2 := lat2 * Real.pi / 180
  let dphi := (lat2 - lat1) * Real.pi / 180
  let dlam := (lon2 - lon1) * Real.pi / 180
  let a := Real.sin (dphi / 2) * Real.sin (dphi / 2) +
    Real.cos phi1 * Real.cos phi2 * Real.sin (dlam / 2) * Real.sin (dlam / 2)
  let c := 2 * atan2 (Real.sqrt a) (Real.sqrt (1 - a))
  R * c

/-- The Haversine formula exactly as the specification words it: `φ` the
latitudes and `λ` the longitudes converted to radians, `Δφ`, `Δλ` their
differences, `a = sin²(Δφ/2) + cos φ1 · cos φ2 · sin²(Δλ/2)`,
`c = 2·atan2(√a, √(1−a))`, result `R·c` with `R = 6371000`. -/
noncomputable def haversineDistanceSpec (lat1 lon1 lat2 lon2 : ℝ) : ℝ :=
  let R : ℝ := 6371000
  let phi1 := lat1 * Real.pi / 180
  let phi2 := lat2 * Real.pi / 180
  let lam1 := lon1 * Real.pi / 180
  let lam2 := lon2 * Real.pi / 180
  let dphi := phi2 - phi1
  let dlam := lam2 - lam1
  let a := Real.sin (dphi / 2) ^ 2 +
    Real.cos phi1 * Real.cos phi2 * Real.sin (dlam / 2) ^ 2
  let c := 2 * atan2 (Real.sqrt a) (Real.sqrt (1 - a))
  R * c

/-- A waypoint as loaded from the route JSON (`LocationData` in
`src/app/page.tsx`); the ISO-8601 `timestamp` string is represented by its
epoch-millisecond value, the only view the simulation takes of it. -/
structure LocationData where
  latitude : ℝ
  longitude : ℝ
  timestamp : ℝ

instance : Inhabited LocationData := ⟨⟨0, 0, 0⟩⟩

/-- Segment-wise linear interpolation, from `src/app/page.tsx` lines
118–123: each coordinate is `prev + (next − prev) * progress`, and the
interpolated time is `prev.timestamp + segmentDurationMs * progress` with
`segmentDurationMs = next.timestamp − prev.timestamp`. -/
noncomputable def interpolate (p q : LocationData) (progress : ℝ) : LocationData :=
  { latitude := p.latitude + (q.latitude - p.latitude) * progress
    longitude := p.longitude + (q.longitude - p.longitude) * progress
    timestamp := p.timestamp + (q.timestamp - p.timestamp) * progress }

/-- The mutable state of the `VehicleMovementMap` component: the `useState`
hooks, the two `useRef` cells (`animationFrameId` is abstracted to the Boolean
`animScheduled`: whether a frame callback is currently pending), in
`src/app/page.tsx` lines 41–53. -/
structure SimState where
  locations : List LocationData
  currentLocationIndex : ℕ
  currentInterpolatedLocation : Option LocationData
  isPlaying : Bool
  segmentStartTime : Option ℝ
  currentSpeed : ℝ
  elapsedTime : ℝ
  currentTimestamp : Option ℝ
  traversedPath : List (ℝ × ℝ)
  animScheduled : Bool

/-- The component's initial state: the `useState` initialisers. -/
def initState : SimState :=
  { locations := []
    currentLocationIndex := 0
    currentInterpolatedLocation := none
    isPlaying := false
    segmentStartTime := none
    currentSpeed := 0
    elapsedTime := 0
    currentTimestamp := none
    traversedPath := []
    animScheduled := false }

/-- `prevActualLoc` (line 103): `locations[idx > 0 ? idx - 1 : 0]`. -/
def prevActualLoc (s : SimState) : LocationData :=
  s.locations.getD
    (if 0 < s.currentLocationIndex then s.currentLocationIndex - 1 else 0) default

/-- `nextActualLoc` (line 104): `locations[idx]`. -/
def nextActualLoc (s : SimState) : LocationData :=
  s.locations.getD s.currentLocationIndex default

/-- `segmentDurationMs` (lines 107–108). -/
def segmentDurationMs (s : SimState) : ℝ :=
  (nextActualLoc s).timestamp - (prevActualLoc s).timestamp

/-- `progress` (lines 111–114): `min((now − segmentStart)/duration, 1)` when
the duration is positive, else `1`. -/
noncomputable def progressAt (now : ℝ) (s : SimState) : ℝ :=
  if 0 < segmentDurationMs s then
    min ((now - s.segmentStartTime.getD 0) / segmentDurationMs s) 1
  else 1

/-- The speed expression of lines 143 and 172:
`segmentDurationMs > 0 ? dist / (segmentDurationMs / 1000) : 0`. -/
noncomputable def segSpeed (dist durMs : ℝ) : ℝ :=
  if 0 < durMs then dist / (durMs / 1000) else 0

/-- The speed a frame tick stores (lines 137–143 and 166–172). -/
noncomputable def tickSpeed (s : SimState) : ℝ :=
  segSpeed
    (haversineDistance (prevActualLoc s).latitude (prevActualLoc s).longitude
      (nextActualLoc s).latitude (nextActualLoc s).longitude)
    (segmentDurationMs s)

/-- `locations[0].timestamp`, used for the elapsed-time displays. -/
def firstTimestamp (s : SimState) : ℝ :=
  (s.locations.getD 0 default).timestamp

open Classical

/-- The `setTraversedPath` updater of lines 152–158: append the reached
point unless it coincides with the path's last entry. -/
noncomputable def appendReached (path : List (ℝ × ℝ)) (q : LocationData) :
    List (ℝ × ℝ) :=
  match path.getLast? with
  | none => path ++ [(q.latitude, q.longitude)]
  | some lastPoint =>
      if lastPoint.1 ≠ q.latitude ∨ lastPoint.2 ≠ q.longitude then
        path ++ [(q.latitude, q.longitude)]
      else path

/-- One frame tick: the `animate` closure of lines 92–189.  The first guard
is line 94 (`!isPlaying || currentLocationIndex >= locations.length`); the
second is line 116 (`progress < 1`); the third is line 176
(`nextIndex < locations.length`). -/
noncomputable def animate (now : ℝ) (s : SimState) : SimState :=
  if ¬ s.isPlaying ∨ s.locations.length ≤ s.currentLocationIndex then
    { s with animScheduled := false }
  else if progressAt now s < 1 then
    { s with
      currentInterpolatedLocation :=
        some (interpolate (prevActualLoc s) (nextActualLoc s) (progressAt now s))
      currentTimestamp :=
        some (interpolate (prevActualLoc s) (nextActualLoc s) (progressAt now s)).timestamp
      elapsedTime :=
        ((interpolate (prevActualLoc s) (nextActualLoc s) (progressAt now s)).timestamp -
          firstTimestamp s) / 1000
      currentSpeed := tickSpeed s
      animScheduled := true }
  else if s.currentLocationIndex + 1 < s.locations.length then
    { s with
      currentInterpolatedLocation := some (nextActualLoc s)
      currentTimestamp := some (nextActualLoc s).timestamp
      traversedPath := appendReached s.traversedPath (nextActualLoc s)
      elapsedTime := ((nextActualLoc s).timestamp - firstTimestamp s) / 1000
      currentSpeed := tickSpeed s
      currentLocationIndex := s.currentLocationIndex + 1
      segmentStartTime := some now
      animScheduled := true }
  else
    { s with
      currentInterpolatedLocation := some (nextActualLoc s)
      currentTimestamp := some (nextActualLoc s).timestamp
      traversedPath := appendReached s.traversedPath (nextActualLoc s)
      elapsedTime := ((nextActualLoc s).timestamp - firstTimestamp s) / 1000
      currentSpeed := tickSpeed s
      isPlaying := false
      animScheduled := false }

/-- A click of the Play/Pause button: `togglePlayPause` (lines 204–206),
including its `disabled={locations.length === 0}` guard (line 277) and the
play/pause effect (lines 78–91 and 192) that cancels the pending frame on
pause, and on play initialises `segmentStartTime` when it is null and
schedules the first frame. -/
def playClick (now : ℝ) (s : SimState) : SimState :=
  match s.locations with
  | [] => s
  | _ :: _ =>
      if s.isPlaying then
        { s with isPlaying := false, animScheduled := false }
      else
        { s with
          isPlaying := true
          segmentStartTime := some (s.segmentStartTime.getD now)
          animScheduled := true }

/-- The data-load effect (lines 56–75): store the fetched list and, when it
is non-empty, initialise index, marker, path and timestamp from waypoint 0. -/
def loadLocations (data : List LocationData) (s : SimState) : SimState :=
  match data with
  | [] => { s with locations := data }
  | d0 :: _ =>
      { s with
        locations := data
        currentLocationIndex := 0
        currentInterpolatedLocation := some d0
        traversedPath := [(d0.latitude, d0.longitude)]
        currentTimestamp := some d0.timestamp }

/-- `resetSimulation` (lines 209–233). -/
def resetSimulation (s : SimState) : SimState :=
  match s.locations with
  | [] =>
      { s with
        isPlaying := false
        animScheduled := false
        segmentStartTime := none
        currentLocationIndex := 0
        currentInterpolatedLocation := none
        traversedPath := []
        currentTimestamp := none
        elapsedTime := 0
        currentSpeed := 0 }
  | d0 :: _ =>
      { s with
        isPlaying := false
        animScheduled := false
        segmentStartTime := none
        currentLocationIndex := 0
        currentInterpolatedLocation := some d0
        traversedPath := [(d0.latitude, d0.longitude)]
        currentTimestamp := some d0.timestamp
        elapsedTime := 0
        currentSpeed := 0 }

/-- The external events that drive the component: the data-load completion,
a Play/Pause click, a frame tick, and a Reset click. -/
inductive Op where
  | load (data : List LocationData)
  | toggle (now : ℝ)
  | tick (now : ℝ)
  | reset

/-- The transition function of the simulation. -/
noncomputable def step (s : SimState) : Op → SimState
  | Op.load data => loadLocations data s
  | Op.toggle now => playClick now s
  | Op.tick now => animate now s
  | Op.reset => resetSimulation s

/-- States reachable from the initial state by any sequence of operations. -/
inductive Reachable : SimState → Prop
  | init : Reachable initState
  | more {s : SimState} (hs : Reachable s) (o : Op) : Reachable (step s o)

end MapSim

namespace MapSim

/-- C1: `haversineDistance` computes exactly `R·c` with `R = 6371000` m,
`a = sin²(Δφ/2) + cos φ1 · cos φ2 · sin²(Δλ/2)` and
`c = 2·atan2(√a, √(1−a))`, the latitudes and longitudes being converted to
radians and `Δφ`, `Δλ` their differences. -/
theorem haversine_matches_spec (lat1 lon1 lat2 lon2 : ℝ) :
    haversineDistance lat1 lon1 lat2 lon2 =
      haversineDistanceSpec lat1 lon1 lat2 lon2 := by
  unfold haversineDistance haversineDistanceSpec
  have hphi : (lat2 - lat1) * Real.pi / 180 =
      lat2 * Real.pi / 180 - lat1 * Real.pi / 180 := by ring
  have hlam : (lon2 - lon1) * Real.pi / 180 =
      lon2 * Real.pi / 180 - lon1 * Real.pi / 180 := by ring
  rw [hphi, hlam]
  norm_num [sq]
  ring_nf

/-- Unfolded form of `haversineDistance`, for rewriting. -/
theorem haversineDistance_eq (lat1 lon1 lat2 lon2 : ℝ) :
    haversineDistance lat1 lon1 lat2 lon2 =
      6371e3 * (2 * atan2
        (Real.sqrt (Real.sin ((lat2 - lat1) * Real.pi / 180 / 2) *
            Real.sin ((lat2 - lat1) * Real.pi / 180 / 2) +
          Real.cos (lat1 * Real.pi / 180) * Real.cos (lat2 * Real.pi / 180) *
            Real.sin ((lon2 - lon1) * Real.pi / 180 / 2) *
            Real.sin ((lon2 - lon1) * Real.pi / 180 / 2)))
        (Real.sqrt (1 - (Real.sin ((lat2 - lat1) * Real.pi / 180 / 2) *
            Real.sin ((lat2 - lat1) * Real.pi / 180 / 2) +
          Real.cos (lat1 * Real.pi / 180) * Real.cos (lat2 * Real.pi / 180) *
            Real.sin ((lon2 - lon1) * Real.pi / 180 / 2) *
            Real.sin ((lon2 - lon1) * Real.pi / 180 / 2))))) := rfl

/-- The distance of a point to itself is `0`. -/
theorem haversine_self (lat1 lon1 : ℝ) :
    haversineDistance lat1 lon1 lat1 lon1 = 0 := by
  have h0 : (lat1 - lat1) * Real.pi / 180 / 2 = 0 := by ring
  have h0' : (lon1 - lon1) * Real.pi / 180 / 2 = 0 := by ring
  rw [haversineDistance_eq, h0, h0', Real.sin_zero]
  norm_num [atan2_zero_one]

/-- C6 counterexample: at the north pole, the points `(90, 0)` and `(90, 90)`
have Haversine distance `0` although their longitudes differ, so
"`haversineDistance` is zero iff the two points are identical" is false as
stated. -/
theorem haversine_zero_iff_identical_false :
    ¬ (haversineDistance 90 0 90 90 = 0 ↔ ((90 : ℝ) = 90 ∧ (0 : ℝ) = 90)) := by
  have hz : haversineDistance 90 0 90 90 = 0 := by
    have h1 : ((90 : ℝ) - 90) * Real.pi / 180 / 2 = 0 := by ring
    have h2 : (90 : ℝ) * Real.pi / 180 = Real.pi / 2 := by ring
    rw [haversineDistance_eq, h1, h2, Real.sin_zero, Real.cos_pi_div_two]
    norm_num [atan2_zero_one]
  intro h
  have h90 := (h.mp hz).2
  norm_num at h90

/-- C6 (amended): `haversineDistance` is symmetric in its two points, and the
distance from a point to itself is `0`; the converse of the latter fails
(see the counterexample at the pole). -/
theorem haversine_symm_and_zero_of_eq (lat1 lon1 lat2 lon2 : ℝ) :
    haversineDistance lat1 lon1 lat2 lon2 = haversineDistance lat2 lon2 lat1 lon1 ∧
    haversineDistance lat1 lon1 lat1 lon1 = 0 := by
  refine ⟨?_, haversine_self lat1 lon1⟩
  have hs : ∀ u v : ℝ,
      Real.sin ((u - v) * Real.pi / 180 / 2) =
        -Real.sin ((v - u) * Real.pi / 180 / 2) := by
    intro u v
    rw [show (u - v) * Real.pi / 180 / 2 = -((v - u) * Real.pi / 180 / 2) by ring,
      Real.sin_neg]
  rw [haversineDistance_eq, haversineDistance_eq, hs lat1 lat2, hs lon1 lon2]
  ring_nf

/-- C2: the interpolation step at `progress = 0` yields exactly the previous
waypoint's coordinates, and at `progress = 1` exactly the next waypoint's
coordinates. -/
theorem interpolate_endpoints (p q : LocationData) :
    (interpolate p q 0).latitude = p.latitude ∧
    (interpolate p q 0).longitude = p.longitude ∧
    (interpolate p q 1).latitude = q.latitude ∧
    (interpolate p q 1).longitude = q.longitude := by
  refine ⟨?_, ?_, ?_, ?_⟩ <;> simp [interpolate]

/-- Cancelling an already-cancelled frame is the identity. -/
theorem set_animScheduled_self (s : SimState) (h : s.animScheduled = false) :
    { s with animScheduled := false } = s := by
  cases s
  subst h
  rfl

/-- C8: with an empty waypoint list, a Play click is a no-op (the button is
disabled, so `isPlaying` stays as it is and no frame is scheduled), and a
frame tick can only cancel a pending frame, never move the vehicle. -/
theorem play_noop_when_empty (now : ℝ) (s : SimState) (h : s.locations = []) :
    playClick now s = s ∧ (playClick now s).isPlaying = s.isPlaying ∧
    animate now s = { s with animScheduled := false } := by
  obtain ⟨locs, idx, interp, play, segStart, speed, elapsed, ts, path, sched⟩ := s
  simp only at h
  subst h
  refine ⟨rfl, rfl, ?_⟩
  unfold animate
  rw [if_pos]
  right
  simp

/-- C8 witness: the initial state has no waypoints and the Play click leaves
it untouched. -/
theorem play_noop_when_empty_witness :
    initState.locations = [] ∧
    (playClick 0 initState = initState ∧
      (playClick 0 initState).isPlaying = initState.isPlaying ∧
      animate 0 initState = { initState with animScheduled := false }) :=
  ⟨rfl, play_noop_when_empty 0 initState rfl⟩

/-- C4: after `resetSimulation`, with waypoints loaded the traversed path is
exactly waypoint 0's coordinates, the target index is `0`, playback is
paused, the marker sits on waypoint 0, and elapsed time and speed are `0`;
with no waypoints loaded, the marker and timestamp are cleared to `none`,
the path to `[]`, and elapsed time and speed to `0`. -/
theorem reset_spec (s : SimState) :
    (∀ hne : s.locations ≠ [],
      (resetSimulation s).traversedPath =
        [((s.locations.head hne).latitude, (s.locations.head hne).longitude)] ∧
      (resetSimulation s).currentLocationIndex = 0 ∧
      (resetSimulation s).isPlaying = false ∧
      (resetSimulation s).currentInterpolatedLocation = some (s.locations.head hne) ∧
      (resetSimulation s).elapsedTime = 0 ∧
      (resetSimulation s).currentSpeed = 0) ∧
    (s.locations = [] →
      (resetSimulation s).currentInterpolatedLocation = none ∧
      (resetSimulation s).currentTimestamp = none ∧
      (resetSimulation s).traversedPath = [] ∧
      (resetSimulation s).elapsedTime = 0 ∧
      (resetSimulation s).currentSpeed = 0) := by
  obtain ⟨locs, idx, interp, play, segStart, speed, elapsed, ts, path, sched⟩ := s
  cases locs with
  | nil => simp [resetSimulation]
  | cons d0 tl => simp [resetSimulation]

/-- C4 witness: reset of a state holding one waypoint `(1, 2)` at time `3`. -/
theorem reset_spec_witness :
    (∀ hne : ({ initState with
        locations := [⟨1, 2, 3⟩] } : SimState).locations ≠ [],
      (resetSimulation { initState with locations := [⟨1, 2, 3⟩] }).traversedPath =
        [((({ initState with locations := [⟨1, 2, 3⟩] } : SimState).locations.head hne).latitude,
          (({ initState with locations := [⟨1, 2, 3⟩] } : SimState).locations.head hne).longitude)] ∧
      (resetSimulation { initState with locations := [⟨1, 2, 3⟩] }).currentLocationIndex = 0 ∧
      (resetSimulation { initState with locations := [⟨1, 2, 3⟩] }).isPlaying = false ∧
      (resetSimulation { initState with locations := [⟨1, 2, 3⟩] }).currentInterpolatedLocation =
        some (({ initState with locations := [⟨1, 2, 3⟩] } : SimState).locations.head hne) ∧
      (resetSimulation { initState with locations := [⟨1, 2, 3⟩] }).elapsedTime = 0 ∧
      (resetSimulation { initState with locations := [⟨1, 2, 3⟩] }).currentSpeed = 0) ∧
    (({ initState with locations := [⟨1, 2, 3⟩] } : SimState).locations = [] →
      (resetSimulation { initState with locations := [⟨1, 2, 3⟩] }).currentInterpolatedLocation = none ∧
      (resetSimulation { initState with locations := [⟨1, 2, 3⟩] }).currentTimestamp = none ∧
      (resetSimulation { initState with locations := [⟨1, 2, 3⟩] }).traversedPath = [] ∧
      (resetSimulation { initState with locations := [⟨1, 2, 3⟩] }).elapsedTime = 0 ∧
      (resetSimulation { initState with locations := [⟨1, 2, 3⟩] }).currentSpeed = 0) :=
  reset_spec { initState with locations := [⟨1, 2, 3⟩] }

/-- C7: when a segment's duration is zero or negative, the speed expression
evaluates to `0` for any distance, and a frame tick over such a segment
stores speed `0` — never a division by zero, never a negative speed. -/
theorem zero_duration_zero_speed (now : ℝ) (s : SimState)
    (hplay : s.isPlaying = true)
    (hidx : s.currentLocationIndex < s.locations.length)
    (hdur : segmentDurationMs s ≤ 0) :
    (∀ d : ℝ, segSpeed d (segmentDurationMs s) = 0) ∧
    (animate now s).currentSpeed = 0 := by
  have hseg : ∀ d : ℝ, segSpeed d (segmentDurationMs s) = 0 := by
    intro d
    unfold segSpeed
    rw [if_neg (not_lt.mpr hdur)]
  refine ⟨hseg, ?_⟩
  have hprog : progressAt now s = 1 := by
    unfold progressAt
    rw [if_neg (not_lt.mpr hdur)]
  have hcond : ¬ (¬ s.isPlaying = true ∨ s.locations.length ≤ s.currentLocationIndex) := by
    push_neg
    exact ⟨hplay, hidx⟩
  unfold animate
  rw [if_neg hcond, hprog, if_neg (lt_irrefl (1 : ℝ))]
  by_cases hnext : s.currentLocationIndex + 1 < s.locations.length
  · rw [if_pos hnext]
    simpa [tickSpeed] using hseg _
  · rw [if_neg hnext]
    simpa [tickSpeed] using hseg _

/-- A two-waypoint route whose timestamps decrease, playing its second
segment: exercises the degenerate negative-duration case. -/
def negDurState : SimState :=
  { initState with
    locations := [⟨0, 0, 5⟩, ⟨0, 0, 3⟩]
    currentLocationIndex := 1
    isPlaying := true
    segmentStartTime := some 0 }

/-- C7 witness: on the decreasing-timestamp route the segment duration is
negative and the tick stores speed `0`. -/
theorem zero_duration_zero_speed_witness :
    segmentDurationMs negDurState ≤ 0 ∧
    (∀ d : ℝ, segSpeed d (segmentDurationMs negDurState) = 0) ∧
    (animate 0 negDurState).currentSpeed = 0 :=
  ⟨by norm_num [segmentDurationMs, nextActualLoc, prevActualLoc, negDurState,
      initState, List.getD],
    zero_duration_zero_speed 0 negDurState rfl (by norm_num [negDurState, initState])
      (by norm_num [segmentDurationMs, nextActualLoc, prevActualLoc, negDurState,
        initState, List.getD])⟩

/-- A tick of a stopped simulation with no pending frame changes nothing. -/
theorem animate_stopped (t : ℝ) (s : SimState) (h : s.isPlaying = false)
    (h2 : s.animScheduled = false) : animate t s = s := by
  unfold animate
  rw [if_pos (Or.inl (by simp [h]))]
  exact set_animScheduled_self s h2

/-- C3: a frame tick that completes the final segment (the target index is
the last waypoint and no waypoints remain) sets `isPlaying` to `false` and
schedules no further frame; every later tick is a no-op, so the animation
never ticks again until Play or Reset changes the state. -/
theorem finish_stops (now : ℝ) (s : SimState)
    (hplay : s.isPlaying = true)
    (hlast : s.currentLocationIndex + 1 = s.locations.length)
    (hdone : 1 ≤ progressAt now s) :
    (animate now s).isPlaying = false ∧
    (animate now s).animScheduled = false ∧
    ∀ t : ℝ, animate t (animate now s) = animate now s := by
  have hidx : s.currentLocationIndex < s.locations.length := by omega
  have hcond : ¬ (¬ s.isPlaying = true ∨ s.locations.length ≤ s.currentLocationIndex) := by
    push_neg
    exact ⟨hplay, hidx⟩
  have hstep : animate now s =
      { s with
        currentInterpolatedLocation := some (nextActualLoc s)
        currentTimestamp := some (nextActualLoc s).timestamp
        traversedPath := appendReached s.traversedPath (nextActualLoc s)
        elapsedTime := ((nextActualLoc s).timestamp - firstTimestamp s) / 1000
        currentSpeed := tickSpeed s
        isPlaying := false
        animScheduled := false } := by
    unfold animate
    rw [if_neg hcond, if_neg (not_lt.mpr hdone), if_neg (by omega)]
  rw [hstep]
  exact ⟨rfl, rfl, fun t => animate_stopped t _ rfl rfl⟩

/-- A one-waypoint route, playing: its only (degenerate) segment is also the
last one. -/
def lastSegState : SimState :=
  { initState with
    locations := [⟨7, 8, 100⟩]
    currentLocationIndex := 0
    isPlaying := true
    segmentStartTime := some 0 }

/-- C3 witness: completing the single final segment stops playback for good. -/
theorem finish_stops_witness :
    1 ≤ progressAt 5 lastSegState ∧
    (animate 5 lastSegState).isPlaying = false ∧
    (animate 5 lastSegState).animScheduled = false ∧
    ∀ t : ℝ, animate t (animate 5 lastSegState) = animate 5 lastSegState :=
  ⟨by norm_num [progressAt, segmentDurationMs, nextActualLoc, prevActualLoc,
      lastSegState, initState, List.getD],
    finish_stops 5 lastSegState rfl rfl
      (by norm_num [progressAt, segmentDurationMs, nextActualLoc, prevActualLoc,
        lastSegState, initState, List.getD])⟩

/-- `appendReached` preserves freedom from consecutive duplicates: the guard
only lets a point in when it differs from the path's last entry. -/
theorem appendReached_chain {path : List (ℝ × ℝ)} {q : LocationData}
    (h : path.Chain' (· ≠ ·)) : (appendReached path q).Chain' (· ≠ ·) := by
  unfold appendReached
  split
  · rename_i hl
    have hnil : path = [] := List.getLast?_eq_none_iff.mp hl
    subst hnil
    simp
  · rename_i lp hl
    split
    · rename_i hne
      rw [List.chain'_append]
      refine ⟨h, List.chain'_singleton _, ?_⟩
      intro x hx y hy
      rw [hl] at hx
      simp only [Option.mem_some_iff] at hx
      simp only [List.head?_cons, Option.mem_some_iff] at hy
      subst hx
      subst hy
      intro heq
      rcases hne with hne | hne
      · exact hne (by rw [heq])
      · exact hne (by rw [heq])
    · exact h

/-- A Play/Pause click never changes the traversed path. -/
theorem playClick_traversedPath (now : ℝ) (s : SimState) :
    (playClick now s).traversedPath = s.traversedPath := by
  unfold playClick
  split
  · rfl
  · split <;> rfl

/-- A Play/Pause click never changes the stored speed. -/
theorem playClick_currentSpeed (now : ℝ) (s : SimState) :
    (playClick now s).currentSpeed = s.currentSpeed := by
  unfold playClick
  split
  · rfl
  · split <;> rfl

/-- A frame tick either leaves the traversed path alone or passes it through
the duplicate-filtering `appendReached`. -/
theorem animate_traversedPath (now : ℝ) (s : SimState) :
    (animate now s).traversedPath = s.traversedPath ∨
    (animate now s).traversedPath = appendReached s.traversedPath (nextActualLoc s) := by
  unfold animate
  split
  · exact Or.inl rfl
  · split
    · exact Or.inl rfl
    · split
      · exact Or.inr rfl
      · exact Or.inr rfl

/-- A frame tick either keeps the stored speed or stores the segment speed. -/
theorem animate_currentSpeed (now : ℝ) (s : SimState) :
    (animate now s).currentSpeed = s.currentSpeed ∨
    (animate now s).currentSpeed = tickSpeed s := by
  unfold animate
  split
  · exact Or.inl rfl
  · split
    · exact Or.inr rfl
    · split
      · exact Or.inr rfl
      · exact Or.inr rfl

/-- After a reset the traversed path is empty or a single point. -/
theorem resetSimulation_traversedPath (s : SimState) :
    (resetSimulation s).traversedPath = [] ∨
    ∃ d0 : LocationData,
      (resetSimulation s).traversedPath = [(d0.latitude, d0.longitude)] := by
  unfold resetSimulation
  cases hl : s.locations with
  | nil => exact Or.inl rfl
  | cons d0 tl => exact Or.inr ⟨d0, rfl⟩

/-- A reset stores speed `0`. -/
theorem resetSimulation_currentSpeed (s : SimState) :
    (resetSimulation s).currentSpeed = 0 := by
  unfold resetSimulation
  cases hl : s.locations with
  | nil => rfl
  | cons d0 tl => rfl

/-- Loading data never changes the stored speed. -/
theorem loadLocations_currentSpeed (data : List LocationData) (s : SimState) :
    (loadLocations data s).currentSpeed = s.currentSpeed := by
  unfold loadLocations
  cases data with
  | nil => rfl
  | cons d0 tl => rfl

/-- C5: in every reachable state, the traversed path has no two consecutive
entries with equal latitude and equal longitude, even when adjacent
waypoints share identical coordinates. -/
theorem traversedPath_no_consecutive_dup {s : SimState} (h : Reachable s) :
    s.traversedPath.Chain' (· ≠ ·) := by
  induction h with
  | init => simp [initState]
  | @more s hs o ih =>
    cases o with
    | load data =>
      cases data with
      | nil => simpa [step, loadLocations] using ih
      | cons d0 tl => simp [step, loadLocations]
    | toggle now =>
      have hp := playClick_traversedPath now s
      simp only [step]
      rw [hp]
      exact ih
    | tick now =>
      rcases animate_traversedPath now s with h1 | h1
      · simp only [step]
        rw [h1]
        exact ih
      · simp only [step]
        rw [h1]
        exact appendReached_chain ih
    | reset =>
      simp only [step]
      rcases resetSimulation_traversedPath s with h1 | ⟨d0, h1⟩ <;> rw [h1] <;> simp

/-- C5 witness: the invariant at the (reachable) initial state. -/
theorem traversedPath_no_consecutive_dup_witness :
    initState.traversedPath.Chain' (· ≠ ·) :=
  traversedPath_no_consecutive_dup Reachable.init

/-- `R·(2·atan2(√a, √b))` is nonnegative, since `√a ≥ 0`. -/
theorem scaled_atan2_sqrt_nonneg (a b : ℝ) :
    0 ≤ 6371e3 * (2 * atan2 (Real.sqrt a) (Real.sqrt b)) := by
  have h : 0 ≤ atan2 (Real.sqrt a) (Real.sqrt b) := atan2_nonneg (Real.sqrt_nonneg a)
  nlinarith

/-- `haversineDistance` never returns a negative value. -/
theorem haversine_nonneg (lat1 lon1 lat2 lon2 : ℝ) :
    0 ≤ haversineDistance lat1 lon1 lat2 lon2 := by
  rw [haversineDistance_eq]
  exact scaled_atan2_sqrt_nonneg _ _

/-- The guarded speed expression is nonnegative for a nonnegative distance. -/
theorem segSpeed_nonneg {dist : ℝ} (h : 0 ≤ dist) (durMs : ℝ) :
    0 ≤ segSpeed dist durMs := by
  unfold segSpeed
  split
  · rename_i hd
    have h1000 : (0 : ℝ) ≤ durMs / 1000 := by linarith
    exact div_nonneg h h1000
  · exact le_refl 0

/-- The speed a tick stores is nonnegative. -/
theorem tickSpeed_nonneg (s : SimState) : 0 ≤ tickSpeed s :=
  segSpeed_nonneg (haversine_nonneg _ _ _ _) _

/-- C10: in every reachable state the displayed speed is nonnegative:
`haversineDistance` is nonnegative, speed is only ever that distance divided
by a positive duration, and every other assignment stores `0`. -/
theorem currentSpeed_nonneg {s : SimState} (h : Reachable s) :
    0 ≤ s.currentSpeed := by
  induction h with
  | init => simp [initState]
  | @more s hs o ih =>
    cases o with
    | load data =>
      simp only [step]
      rw [loadLocations_currentSpeed]
      exact ih
    | toggle now =>
      simp only [step]
      rw [playClick_currentSpeed]
      exact ih
    | tick now =>
      rcases animate_currentSpeed now s with h1 | h1
      · simp only [step]
        rw [h1]
        exact ih
      · simp only [step]
        rw [h1]
        exact tickSpeed_nonneg s
    | reset =>
      simp only [step]
      rw [resetSimulation_currentSpeed]

/-- C10 witness: the invariant at the (reachable) initial state. -/
theorem currentSpeed_nonneg_witness : 0 ≤ initState.currentSpeed :=
  currentSpeed_nonneg Reachable.init

/-- The timestamp of the marker's current (interpolated) position. -/
def interpTs (s : SimState) : ℝ :=
  (s.currentInterpolatedLocation.getD default).timestamp

/-- The guard of line 94 is false while playing with waypoints remaining. -/
theorem animate_guard_false {s : SimState} (hplay : s.isPlaying = true)
    (hidx : s.currentLocationIndex < s.locations.length) :
    ¬ (¬ s.isPlaying = true ∨ s.locations.length ≤ s.currentLocationIndex) := by
  push_neg
  exact ⟨hplay, hidx⟩

/-- The in-segment branch of a frame tick (lines 116–145). -/
theorem animate_inseg (now : ℝ) (s : SimState) (hplay : s.isPlaying = true)
    (hidx : s.currentLocationIndex < s.locations.length)
    (hp : progressAt now s < 1) :
    animate now s =
      { s with
        currentInterpolatedLocation :=
          some (interpolate (prevActualLoc s) (nextActualLoc s) (progressAt now s))
        currentTimestamp :=
          some (interpolate (prevActualLoc s) (nextActualLoc s) (progressAt now s)).timestamp
        elapsedTime :=
          ((interpolate (prevActualLoc s) (nextActualLoc s) (progressAt now s)).timestamp -
            firstTimestamp s) / 1000
        currentSpeed := tickSpeed s
        animScheduled := true } := by
  unfold animate
  rw [if_neg (animate_guard_false hplay hidx), if_pos hp]

/-- The segment-completion branch of a frame tick when waypoints remain
(lines 146–179). -/
theorem animate_complete_mid (now : ℝ) (s : SimState) (hplay : s.isPlaying = true)
    (hidx : s.currentLocationIndex < s.locations.length)
    (hp : ¬ progressAt now s < 1)
    (hnext : s.currentLocationIndex + 1 < s.locations.length) :
    animate now s =
      { s with
        currentInterpolatedLocation := some (nextActualLoc s)
        currentTimestamp := some (nextActualLoc s).timestamp
        traversedPath := appendReached s.traversedPath (nextActualLoc s)
        elapsedTime := ((nextActualLoc s).timestamp - firstTimestamp s) / 1000
        currentSpeed := tickSpeed s
        currentLocationIndex := s.currentLocationIndex + 1
        segmentStartTime := some now
        animScheduled := true } := by
  unfold animate
  rw [if_neg (animate_guard_false hplay hidx), if_neg hp, if_pos hnext]

/-- The segment-completion branch of a frame tick at the end of the route
(lines 180–187). -/
theorem animate_complete_last (now : ℝ) (s : SimState) (hplay : s.isPlaying = true)
    (hidx : s.currentLocationIndex < s.locations.length)
    (hp : ¬ progressAt now s < 1)
    (hnext : ¬ s.currentLocationIndex + 1 < s.locations.length) :
    animate now s =
      { s with
        currentInterpolatedLocation := some (nextActualLoc s)
        currentTimestamp := some (nextActualLoc s).timestamp
        traversedPath := appendReached s.traversedPath (nextActualLoc s)
        elapsedTime := ((nextActualLoc s).timestamp - firstTimestamp s) / 1000
        currentSpeed := tickSpeed s
        isPlaying := false
        animScheduled := false } := by
  unfold animate
  rw [if_neg (animate_guard_false hplay hidx), if_neg hp, if_neg hnext]

/-- `progress` is monotone in the wall clock. -/
theorem progressAt_mono (s : SimState) {t1 t2 : ℝ} (h : t1 ≤ t2) :
    progressAt t1 s ≤ progressAt t2 s := by
  unfold progressAt
  split
  · rename_i hd
    refine min_le_min ?_ le_rfl
    exact (div_le_div_iff_of_pos_right hd).mpr (by linarith)
  · exact le_rfl

/-- `progress` never exceeds `1`. -/
theorem progressAt_le_one (now : ℝ) (s : SimState) : progressAt now s ≤ 1 := by
  unfold progressAt
  split
  · exact min_le_right _ _
  · exact le_rfl

/-- `progress` is nonnegative once the wall clock has passed the segment
start. -/
theorem progressAt_nonneg (now : ℝ) (s : SimState)
    (h : s.segmentStartTime.getD 0 ≤ now) : 0 ≤ progressAt now s := by
  unfold progressAt
  split
  · rename_i hd
    exact le_min (div_nonneg (by linarith) hd.le) one_pos.le
  · norm_num

/-- If the duration is not positive, `progress` is `1`. -/
theorem progressAt_of_nonpos (now : ℝ) (s : SimState)
    (h : segmentDurationMs s ≤ 0) : progressAt now s = 1 := by
  unfold progressAt
  rw [if_neg (not_lt.mpr h)]

/-- The interpolated timestamp is monotone in `progress` along a
forward-in-time segment. -/
theorem interpolate_ts_mono {p q : LocationData} {a b : ℝ}
    (hd : 0 ≤ q.timestamp - p.timestamp) (hab : a ≤ b) :
    (interpolate p q a).timestamp ≤ (interpolate p q b).timestamp := by
  unfold interpolate
  simp only
  nlinarith

/-- At `progress = 0` the interpolated timestamp is the segment start's. -/
theorem interpolate_zero_ts (p q : LocationData) :
    (interpolate p q 0).timestamp = p.timestamp := by
  unfold interpolate
  simp

/-- At `progress = 1` the interpolated timestamp is the segment end's. -/
theorem interpolate_one_ts (p q : LocationData) :
    (interpolate p q 1).timestamp = q.timestamp := by
  unfold interpolate
  simp

/-- Adjacent waypoints of a chronologically sorted list have nondecreasing
timestamps. -/
theorem chain'_timestamp_getD {l : List LocationData}
    (h : l.Chain' (fun a b => a.timestamp ≤ b.timestamp))
    {i : ℕ} (hi : i + 1 < l.length) :
    (l.getD i default).timestamp ≤ (l.getD (i + 1) default).timestamp := by
  rw [List.getD_eq_getElem l default (by omega), List.getD_eq_getElem l default hi]
  have hg := List.chain'_iff_get.mp h i (by omega)
  simpa [List.get_eq_getElem] using hg

/-- C9: while playing over a chronologically ordered waypoint list, the
timestamp of the interpolated position is monotonically non-decreasing
across successive frame ticks — both within a segment and when snapping to
the next waypoint at segment completion. -/
theorem interp_timestamp_monotone (s : SimState) (t1 t2 : ℝ)
    (hplay : s.isPlaying = true)
    (hidx : s.currentLocationIndex < s.locations.length)
    (hsorted : s.locations.Chain' (fun a b => a.timestamp ≤ b.timestamp))
    (h12 : t1 ≤ t2) :
    interpTs (animate t1 s) ≤ interpTs (animate t2 (animate t1 s)) := by
  by_cases hp1 : progressAt t1 s < 1
  · -- tick 1 stays inside the segment
    have hdur : 0 < segmentDurationMs s := by
      by_contra hle
      push_neg at hle
      rw [progressAt_of_nonpos t1 s hle] at hp1
      exact lt_irrefl 1 hp1
    have e1 := animate_inseg t1 s hplay hidx hp1
    have hl1 : (animate t1 s).locations = s.locations := by rw [e1]
    have hi1 : (animate t1 s).currentLocationIndex = s.currentLocationIndex := by rw [e1]
    have hp1' : (animate t1 s).isPlaying = true := by rw [e1]; exact hplay
    have hst1 : (animate t1 s).segmentStartTime = s.segmentStartTime := by rw [e1]
    have hprev1 : prevActualLoc (animate t1 s) = prevActualLoc s := by
      unfold prevActualLoc
      rw [hl1, hi1]
    have hnext1 : nextActualLoc (animate t1 s) = nextActualLoc s := by
      unfold nextActualLoc
      rw [hl1, hi1]
    have hdm1 : segmentDurationMs (animate t1 s) = segmentDurationMs s := by
      unfold segmentDurationMs
      rw [hprev1, hnext1]
    have hprog2 : progressAt t2 (animate t1 s) = progressAt t2 s := by
      unfold progressAt
      rw [hdm1, hst1]
    have hidx1 : (animate t1 s).currentLocationIndex < (animate t1 s).locations.length := by
      rw [hl1, hi1]
      exact hidx
    have hts1 : interpTs (animate t1 s) =
        (interpolate (prevActualLoc s) (nextActualLoc s) (progressAt t1 s)).timestamp := by
      rw [e1]
      simp [interpTs]
    have hd0 : 0 ≤ (nextActualLoc s).timestamp - (prevActualLoc s).timestamp := hdur.le
    by_cases hp2 : progressAt t2 (animate t1 s) < 1
    · have e2 := animate_inseg t2 (animate t1 s) hp1' hidx1 hp2
      have hts2 : interpTs (animate t2 (animate t1 s)) =
          (interpolate (prevActualLoc s) (nextActualLoc s) (progressAt t2 s)).timestamp := by
        rw [e2]
        simp [interpTs, hprev1, hnext1, hprog2]
      rw [hts1, hts2]
      exact interpolate_ts_mono hd0 (progressAt_mono s h12)
    · -- tick 2 completes the segment
      have hts2 : interpTs (animate t2 (animate t1 s)) = (nextActualLoc s).timestamp := by
        by_cases hnext2 :
            (animate t1 s).currentLocationIndex + 1 < (animate t1 s).locations.length
        · rw [animate_complete_mid t2 (animate t1 s) hp1' hidx1 hp2 hnext2]
          simp [interpTs, hnext1]
        · rw [animate_complete_last t2 (animate t1 s) hp1' hidx1 hp2 hnext2]
          simp [interpTs, hnext1]
      rw [hts1, hts2, ← interpolate_one_ts (prevActualLoc s) (nextActualLoc s)]
      exact interpolate_ts_mono hd0 (progressAt_le_one t1 s)
  · -- tick 1 completes its segment
    by_cases hnext : s.currentLocationIndex + 1 < s.locations.length
    · -- advance to a new segment starting at the reached waypoint
      have e1 := animate_complete_mid t1 s hplay hidx hp1 hnext
      have hl1 : (animate t1 s).locations = s.locations := by rw [e1]
      have hi1 : (animate t1 s).currentLocationIndex = s.currentLocationIndex + 1 := by
        rw [e1]
      have hp1' : (animate t1 s).isPlaying = true := by rw [e1]; exact hplay
      have hst1 : (animate t1 s).segmentStartTime = some t1 := by rw [e1]
      have hidx1 : (animate t1 s).currentLocationIndex < (animate t1 s).locations.length := by
        rw [hl1, hi1]
        exact hnext
      have hprev1 : prevActualLoc (animate t1 s) = nextActualLoc s := by
        unfold prevActualLoc nextActualLoc
        rw [hl1, hi1, if_pos (Nat.succ_pos _), Nat.add_sub_cancel]
      have hnext1 : nextActualLoc (animate t1 s) =
          s.locations.getD (s.currentLocationIndex + 1) default := by
        unfold nextActualLoc
        rw [hl1, hi1]
      have hts1 : interpTs (animate t1 s) = (nextActualLoc s).timestamp := by
        rw [e1]
        simp [interpTs]
      have hchain : (nextActualLoc s).timestamp ≤
          (s.locations.getD (s.currentLocationIndex + 1) default).timestamp := by
        unfold nextActualLoc
        exact chain'_timestamp_getD hsorted hnext
      by_cases hp2 : progressAt t2 (animate t1 s) < 1
      · have e2 := animate_inseg t2 (animate t1 s) hp1' hidx1 hp2
        have hnn : 0 ≤ progressAt t2 (animate t1 s) := by
          apply progressAt_nonneg
          rw [hst1]
          simpa using h12
        have hd0 : 0 ≤ (nextActualLoc (animate t1 s)).timestamp -
            (prevActualLoc (animate t1 s)).timestamp := by
          rw [hprev1, hnext1]
          linarith [hchain]
        have hts2 : interpTs (animate t2 (animate t1 s)) =
            (interpolate (prevActualLoc (animate t1 s)) (nextActualLoc (animate t1 s))
              (progressAt t2 (animate t1 s))).timestamp := by
          rw [e2]
          simp [interpTs]
        rw [hts1, hts2]
        calc (nextActualLoc s).timestamp
            = (interpolate (prevActualLoc (animate t1 s))
                (nextActualLoc (animate t1 s)) 0).timestamp := by
              rw [interpolate_zero_ts, hprev1]
          _ ≤ _ := interpolate_ts_mono hd0 hnn
      · have hts2 : interpTs (animate t2 (animate t1 s)) =
            (nextActualLoc (animate t1 s)).timestamp := by
          by_cases hnext2 :
              (animate t1 s).currentLocationIndex + 1 < (animate t1 s).locations.length
          · rw [animate_complete_mid t2 (animate t1 s) hp1' hidx1 hp2 hnext2]
            simp [interpTs]
          · rw [animate_complete_last t2 (animate t1 s) hp1' hidx1 hp2 hnext2]
            simp [interpTs]
        rw [hts1, hts2, hnext1]
        exact hchain
    · -- the route is finished after tick 1: tick 2 is a no-op
      have e1 := animate_complete_last t1 s hplay hidx hp1 hnext
      have hstop : (animate t1 s).isPlaying = false := by rw [e1]
      have hsched : (animate t1 s).animScheduled = false := by rw [e1]
      rw [animate_stopped t2 (animate t1 s) hstop hsched]

/-- A sorted two-waypoint route, playing its second segment from wall-clock
time `0`. -/
def sortedPlayState : SimState :=
  { initState with
    locations := [⟨0, 0, 0⟩, ⟨0, 1, 1000⟩]
    currentLocationIndex := 1
    isPlaying := true
    segmentStartTime := some 0 }

/-- C9 witness: on the sorted route, ticks at times `100` and `300` never
move the marker timestamp backwards. -/
theorem interp_timestamp_monotone_witness :
    sortedPlayState.isPlaying = true ∧
    sortedPlayState.currentLocationIndex < sortedPlayState.locations.length ∧
    sortedPlayState.locations.Chain' (fun a b => a.timestamp ≤ b.timestamp) ∧
    (100 : ℝ) ≤ 300 ∧
    interpTs (animate 100 sortedPlayState) ≤
      interpTs (animate 300 (animate 100 sortedPlayState)) :=
  ⟨rfl, by norm_num [sortedPlayState, initState],
    by norm_num [sortedPlayState, initState, List.chain'_cons, List.chain'_singleton],
    by norm_num,
    interp_timestamp_monotone sortedPlayState 100 300 rfl
      (by norm_num [sortedPlayState, initState])
      (by norm_num [sortedPlayState, initState, List.chain'_cons, List.chain'_singleton])
      (by norm_num)⟩

end MapSim
